import Mathlib

/-!
Shallow embedding of the state reconciliation and notification lifecycle
engine of monitor.py (repository HostCN/bandwagonhost).

The embedding translates, from the source:
  * ProductTracker.update_product / get_product (the persistent store),
  * send_telegram_message and edit_or_skip_message (channel execution,
    including the dictionary mutation during iteration in the
    handle-invalid branch, which in Python raises RuntimeError on the
    next loop step and aborts the rest of the function),
  * the per-product decision block of fetch_and_parse_products
    (observation out of stock or in stock, restock / new listing /
    delist / first-observation branches),
  * the post-batch sweep loop over stored keys of the same source,
  * the skip conditions of the fetch stage, and
  * the file level behaviour of ProductTracker.save_to_file.

Network effects are represented by oracles: a send oracle mapping a chat
id to an optional message id, and an edit oracle mapping a chat id to the
classified outcome of bot.edit_message_text.  Message text formatting
(build_product_message) is pure presentation; a message is represented by
the tuple of arguments the code passes to build_product_message, so that
theorems can speak about which stored fields a message uses.
-/

namespace Monitor

/-- Channel id to message id mapping, the value of the "message_ids" key of a
record (a Python dict keyed by chat id). -/
abbrev MsgIds := List (String × Nat)

/-- A persisted product record, one entry of ProductTracker.inventory.
The message_ids field is an Option because update_product only adds the
"message_ids" key to the dict when it has a value to store. -/
structure ProductRecord where
  price : String
  features : String
  link : String
  out_of_stock : Bool
  message_ids : Option MsgIds
deriving DecidableEq, Repr

/-- ProductTracker.inventory: a key to record mapping with dict insertion
order, modelled as an association list with unique keys. -/
abbrev Inventory := List (String × ProductRecord)

/-- ProductTracker.get_product: self.inventory.get(key). -/
def getProduct : Inventory → String → Option ProductRecord
  | [], _ => none
  | (k, r) :: rest, key => if k = key then some r else getProduct rest key

/-- Dict assignment self.inventory[key] = data: replaces in place when the
key exists, otherwise appends (Python dicts keep insertion order). -/
def setProduct : Inventory → String → ProductRecord → Inventory
  | [], key, r => [(key, r)]
  | (k, r0) :: rest, key, r =>
      if k = key then (k, r) :: rest else (k, r0) :: setProduct rest key r

/-- The message_ids value stored by update_product: the explicit argument
when one is passed, otherwise the value inherited from the previous record
under the same key when that record has one. -/
def resolveMids (inv : Inventory) (key : String) : Option MsgIds → Option MsgIds
  | some m => some m
  | none =>
      match getProduct inv key with
      | some old => old.message_ids
      | none => none

/-- ProductTracker.update_product (monitor.py lines 106 to 119); the
save_to_file call is write-through persistence of the same mapping, so the
durable state equals the returned inventory. -/
def update_product (inv : Inventory) (key price features link : String)
    (oos : Bool) (message_ids : Option MsgIds) : Inventory :=
  setProduct inv key ⟨price, features, link, oos, resolveMids inv key message_ids⟩

/-- make_product_key (monitor.py line 130). -/
def make_product_key (source name : String) : String := source ++ "::" ++ name

/-- The Python truthiness test used at lines 356 and 367:
the record has a "message_ids" key and the dict is non-empty. -/
def hasLiveMids (r : ProductRecord) : Bool :=
  match r.message_ids with
  | some l => !l.isEmpty
  | none => false

/-- Classified outcome of one bot.edit_message_text call, following the
exception handling of edit_or_skip_message (monitor.py lines 176 to 202):
success, BadRequest "Message is not modified", BadRequest
"Message_id_invalid", any other BadRequest, any other exception. -/
inductive EditOutcome where
  | success
  | notModified
  | handleInvalid
  | otherBadRequest
  | otherError
deriving DecidableEq, Repr

/-- Dict assignment message_ids[chat_id] = sent_message.message_id. -/
def setAssoc : MsgIds → String → Nat → MsgIds
  | [], c, m => [(c, m)]
  | (c0, m0) :: rest, c, m =>
      if c0 = c then (c0, m) :: rest else (c0, m0) :: setAssoc rest c m

/-- send_telegram_message (monitor.py lines 143 to 166): for each configured
chat id, a successful send contributes its message id; failures are logged
and skipped.  Returns the dict, or None when it is empty.  The send oracle
gives the message id of the successful send, none on failure (retries on
timeout only change timing, not the final per-chat result). -/
def send_telegram_message (chats : List String) (sendOk : String → Option Nat) :
    Option MsgIds :=
  let ids := chats.foldl (fun acc c =>
    match sendOk c with
    | some m => setAssoc acc c m
    | none => acc) []
  if ids.isEmpty then none else some ids

/-- The chat id of the first entry, in dict order, whose edit call raises
BadRequest "Message_id_invalid". -/
def firstInvalid (eo : String → EditOutcome) : MsgIds → Option String
  | [] => none
  | (c, _) :: rest =>
      if eo c = EditOutcome.handleInvalid then some c else firstInvalid eo rest

/-- The per-chat loop of edit_or_skip_message (monitor.py lines 175 to 203).
All outcomes other than handleInvalid leave the store untouched and move to
the next entry.  On handleInvalid the code pops chat_id from the very dict
the loop is iterating and persists the pruned record via update_product;
in Python the next step of the iterator then raises RuntimeError
(dictionary changed size during iteration), which propagates out of
edit_or_skip_message, so no later entry is processed.  The Bool result
records that escaped RuntimeError. -/
def edit_items_loop (inv : Inventory) (key : String) (snap : ProductRecord)
    (mids : MsgIds) (eo : String → EditOutcome) : MsgIds → Inventory × Bool
  | [] => (inv, false)
  | (chat, _) :: rest =>
      if eo chat = EditOutcome.handleInvalid then
        (update_product inv key snap.price snap.features snap.link snap.out_of_stock
          (some (mids.filter (fun p => p.1 != chat))), true)
      else edit_items_loop inv key snap mids eo rest

/-- edit_or_skip_message (monitor.py lines 168 to 203): skip when the key has
no record or the record has no "message_ids" key, otherwise run the per-chat
edit loop over the stored handles. -/
def edit_or_skip_message (inv : Inventory) (key : String)
    (eo : String → EditOutcome) : Inventory × Bool :=
  match getProduct inv key with
  | none => (inv, false)
  | some snap =>
      match snap.message_ids with
      | none => (inv, false)
      | some mids => edit_items_loop inv key snap mids eo mids

/-- The observation derived from one fetched page: the parsed product name,
price text, feature text and out of stock flag (monitor.py lines 300 to 330). -/
structure Observation where
  name : String
  price : String
  features : String
  out_of_stock : Bool
deriving DecidableEq, Repr

/-- The arguments the code passes to build_product_message; messages are
identified by these arguments since the text formatting is presentation. -/
structure MsgArgs where
  name : String
  price : String
  features : String
  link : String
  out_of_stock : Bool
  tag : Option String
  promo : Option String
deriving DecidableEq, Repr

/-- A performed channel operation: send_telegram_message with a composed
message, or edit_or_skip_message on a key with a composed message. -/
inductive Action where
  | sendNew (args : MsgArgs)
  | editMsg (key : String) (args : MsgArgs)
deriving DecidableEq, Repr

/-- The placeholder price stored when a page is observed out of stock
(monitor.py line 308). -/
def UNKNOWN_PRICE : String := "价格未知"

/-- The placeholder feature text stored when a page is observed out of stock
(monitor.py line 309); line 330 also falls back to it when no feature line
survives filtering. -/
def UNKNOWN_FEATURES : String := "配置未知"

/-- The longest leading run of decimal digits. -/
def leadingDigits : List Char → List Char
  | [] => []
  | c :: cs => if c.isDigit then c :: leadingDigits cs else []

/-- re.search of pid=(d+) over the url: the digit run after the first
occurrence of "pid=" that is followed by at least one digit. -/
def findPid : List Char → Option String
  | [] => none
  | c :: cs =>
      if c = 'p' ∧ cs.take 3 = ['i', 'd', '='] then
        let ds := leadingDigits (cs.drop 3)
        if ds.isEmpty then findPid cs else some (String.mk ds)
      else findPid cs

/-- The observation built for a page showing Out of Stock (monitor.py lines
303 to 309): a pid-derived display name and the two placeholder fields. -/
def oos_observation (url : String) : Observation :=
  ⟨(match findPid url.data with
      | some pid => "商品 PID " ++ pid
      | none => "未知商品"),
    UNKNOWN_PRICE, UNKNOWN_FEATURES, true⟩

/-- The per-product decision and execution block of fetch_and_parse_products
(monitor.py lines 332 to 360), for the product key derived from the current
observation.  Returns the updated inventory, the channel operations
performed, and whether the block escaped with the RuntimeError raised by
the edit loop (in which case the delist record write at line 358 and the
sweep never run). -/
def process_product (inv : Inventory) (source : String) (obs : Observation)
    (full_link : String) (promo : Option String) (send : Bool)
    (chats : List String) (sendOk : String → Option Nat)
    (eo : String → EditOutcome) : Inventory × List Action × Bool :=
  let key := make_product_key source obs.name
  if obs.out_of_stock then
    match getProduct inv key with
    | some ex =>
        if ex.out_of_stock then (inv, [], false)
        else
          let args : MsgArgs := ⟨obs.name, ex.price, ex.features, full_link, true, none, promo⟩
          if send && hasLiveMids ex then
            match edit_or_skip_message inv key eo with
            | (inv1, true) => (inv1, [Action.editMsg key args], true)
            | (inv1, false) =>
                (update_product inv1 key ex.price ex.features full_link true ex.message_ids,
                  [Action.editMsg key args], false)
          else
            (update_product inv key ex.price ex.features full_link true ex.message_ids,
              [], false)
    | none => (update_product inv key obs.price obs.features full_link true none, [], false)
  else
    let restock :=
      match getProduct inv key with
      | some ex => ex.out_of_stock
      | none => false
    let changed :=
      match getProduct inv key with
      | none => true
      | some ex => ex.price != obs.price || ex.features != obs.features
    let mtag : Option String :=
      if restock then some "搬瓦工补货"
      else if changed then some "搬瓦工上新"
      else none
    match mtag with
    | none => (inv, [], false)
    | some tg =>
        let args : MsgArgs := ⟨obs.name, obs.price, obs.features, full_link, false, some tg, promo⟩
        if send then
          (update_product inv key obs.price obs.features full_link false
            (send_telegram_message chats sendOk), [Action.sendNew args], false)
        else
          (update_product inv key obs.price obs.features full_link false none, [], false)

/-- Characters after the first occurrence of "::", the Python
key.split("::", 1)[1] used at line 366 for the display name. -/
def afterDelim : List Char → List Char
  | [] => []
  | c :: cs => if c = ':' ∧ cs.head? = some ':' then cs.drop 1 else afterDelim cs

/-- Display name of a stored key in the sweep loop. -/
def display_name (key : String) : String := String.mk (afterDelim key.data)

/-- Does the needle match at the head of the haystack. -/
def headMatches : List Char → List Char → Bool
  | [], _ => true
  | _ :: _, [] => false
  | a :: as, b :: bs => a == b && headMatches as bs

/-- Substring search over character lists. -/
def containsAux (needle : List Char) : List Char → Bool
  | [] => needle.isEmpty
  | c :: cs => headMatches needle (c :: cs) || containsAux needle cs

/-- Python substring membership: needle in hay. -/
def strContains (hay needle : String) : Bool := containsAux needle.data hay.data

/-- Python startswith over the characters. -/
def strStartsWith (s pre : String) : Bool := headMatches pre.data s.data

/-- The sweep filter of line 363: the key belongs to this source and was not
observed in the current batch. -/
def sweepTarget (source : String) (current_keys : List String) (key : String) : Bool :=
  strStartsWith key (source ++ "::") && !(current_keys.contains key)

/-- Is this channel operation an edit of the given product key. -/
def isEditFor (key : String) : Action → Bool
  | Action.editMsg k _ => k == key
  | Action.sendNew _ => false

/-- The sweep loop of fetch_and_parse_products (monitor.py lines 362 to 379)
iterated over a snapshot of the stored keys.  An in-stock record absent from
the current batch gets its message edited (when notifications are on and it
holds live handles) and is rewritten with out_of_stock true; a record whose
edit loop raises RuntimeError aborts the whole sweep after persisting the
pruned handles.  The unreachable case of a snapshot key without a record
would be a Python AttributeError and is also marked as an escape. -/
def sweep_keys (source full_link : String) (promo : Option String)
    (current_keys : List String) (send : Bool)
    (eo : String → String → EditOutcome) :
    Inventory → List String → Inventory × List Action × Bool
  | inv, [] => (inv, [], false)
  | inv, key :: rest =>
      if sweepTarget source current_keys key then
        match getProduct inv key with
        | none => (inv, [], true)
        | some ex =>
            if ex.out_of_stock then
              sweep_keys source full_link promo current_keys send eo inv rest
            else
              let args : MsgArgs :=
                ⟨display_name key, ex.price, ex.features, full_link, true, none, promo⟩
              if send && hasLiveMids ex then
                match edit_or_skip_message inv key (eo key) with
                | (inv1, true) => (inv1, [Action.editMsg key args], true)
                | (inv1, false) =>
                    match sweep_keys source full_link promo current_keys send eo
                        (update_product inv1 key ex.price ex.features full_link true
                          ex.message_ids) rest with
                    | (inv2, acts, c) => (inv2, Action.editMsg key args :: acts, c)
              else
                sweep_keys source full_link promo current_keys send eo
                  (update_product inv key ex.price ex.features full_link true
                    ex.message_ids) rest
      else sweep_keys source full_link promo current_keys send eo inv rest

/-- The sweep over list(product_tracker.inventory.keys()). -/
def sweep (inv : Inventory) (source full_link : String) (promo : Option String)
    (current_keys : List String) (send : Bool)
    (eo : String → String → EditOutcome) : Inventory × List Action × Bool :=
  sweep_keys source full_link promo current_keys send eo inv (inv.map Prod.fst)

/-- The whole post-parse body of fetch_and_parse_products for one page: the
per-product block followed, when it did not escape, by the sweep for the
source with the current batch key set (a single key, since one page yields
one product). -/
def process_page (inv : Inventory) (source : String) (obs : Observation)
    (full_link : String) (promo : Option String) (send : Bool)
    (chats : List String) (sendOk : String → Option Nat)
    (eo : String → String → EditOutcome) : Inventory × List Action × Bool :=
  match process_product inv source obs full_link promo send chats sendOk
      (eo (make_product_key source obs.name)) with
  | (inv1, acts1, true) => (inv1, acts1, true)
  | (inv1, acts1, false) =>
      match sweep inv1 source full_link promo [make_product_key source obs.name] send eo with
      | (inv2, acts2, c) => (inv2, acts1 ++ acts2, c)

/-- What the fetch stage decides for one HTTP response: skip the source this
round, raise for the retry loop, or proceed to parsing. -/
inductive FetchDecision where
  | skipPage
  | retryAttempt
  | proceed
deriving DecidableEq, Repr

/-- The redirect target that is skipped at lines 267 to 270. -/
def BWH_CART_ROOT : String := "https://bwh81.net/cart.php"

/-- The pre-parse gate of fetch_and_parse_products (monitor.py lines 254 to
294): statuses 400, 401, 403, 404 skip; 503 raises and is retried; any other
status is parsed after a warning; then the redirect check, the empty or
missing title check, the maintenance markers, and the Bandwagon marker.
title_text is the stripped text of the title tag, none when the tag is
missing. -/
def fetch_decision (status : Nat) (final_url : String)
    (title_text : Option String) : FetchDecision :=
  if status = 400 ∨ status = 401 ∨ status = 403 ∨ status = 404 then .skipPage
  else if status = 503 then .retryAttempt
  else if final_url = BWH_CART_ROOT then .skipPage
  else
    match title_text with
    | none => .skipPage
    | some t =>
        if t = "" then .skipPage
        else if strContains t "维护" || strContains t "Maintenance" then .skipPage
        else if !(strContains t "Bandwagon") then .skipPage
        else .proceed

/-- One source poll: every skip or abandoned retry path returns before any
record is touched; only proceed reaches the parse and the reconciliation
body. -/
def fetch_round (inv : Inventory) (status : Nat) (final_url : String)
    (title_text : Option String) (source : String) (obs : Observation)
    (full_link : String) (promo : Option String) (send : Bool)
    (chats : List String) (sendOk : String → Option Nat)
    (eo : String → String → EditOutcome) : Inventory × List Action × Bool :=
  match fetch_decision status final_url title_text with
  | .skipPage => (inv, [], false)
  | .retryAttempt => (inv, [], false)
  | .proceed => process_page inv source obs full_link promo send chats sendOk eo

/-- File level behaviour of ProductTracker.save_to_file (monitor.py lines 99
to 104).  open(self.file_path, "w") truncates the durable file before
json.dump streams the serialization into it chunk by chunk; if serialization
raises after k chunks the exception is caught and only logged, and the file
keeps the partial prefix.  chunks is the serialized output stream and
failAfter the failure point (none means serialization succeeds).  The
previous file content does not influence the result because of the
truncating open. -/
def save_to_file (_oldContent : String) (chunks : List String)
    (failAfter : Option Nat) : String :=
  match failAfter with
  | none => String.join chunks
  | some k => String.join (chunks.take k)

/-- Are both signature fields still the unknown placeholders assigned by the
first-observation-out-of-stock path (monitor.py lines 303 to 309). -/
def unknownSigs (p f : String) : Bool :=
  p == UNKNOWN_PRICE && f == UNKNOWN_FEATURES

/-- A channel operation never built from the placeholder pair: sends carry
the fresh observation, and an edit must use real stored signatures. -/
def actionSigsKnown : Action → Prop
  | Action.sendNew _ => True
  | Action.editMsg _ args => unknownSigs args.price args.features = false

/-- Store invariant: every record currently marked in stock carries
signatures that are not the placeholder pair.  Records created by the
first-observation-out-of-stock path carry the pair but are marked out of
stock until a restock overwrites both fields with observed values. -/
def noUnknownInStock (inv : Inventory) : Prop :=
  ∀ k r, getProduct inv k = some r → r.out_of_stock = false →
    unknownSigs r.price r.features = false

theorem getProduct_setProduct_self (inv : Inventory) (key : String) (r : ProductRecord) :
    getProduct (setProduct inv key r) key = some r := by
  induction inv with
  | nil => simp [setProduct, getProduct]
  | cons hd tl ih =>
      obtain ⟨k, r0⟩ := hd
      by_cases h : k = key
      · simp [setProduct, getProduct, h]
      · simp [setProduct, getProduct, h, ih]

theorem getProduct_setProduct_ne (inv : Inventory) (key k2 : String) (r : ProductRecord)
    (h : k2 ≠ key) : getProduct (setProduct inv key r) k2 = getProduct inv k2 := by
  induction inv with
  | nil => simp [setProduct, getProduct, Ne.symm h]
  | cons hd tl ih =>
      obtain ⟨k, r0⟩ := hd
      by_cases hk : k = key
      · subst hk
        simp [setProduct, getProduct, Ne.symm h]
      · simp only [setProduct, if_neg hk]
        by_cases h2 : k = k2
        · simp [getProduct, h2]
        · simp [getProduct, h2, ih]

theorem getProduct_update_self (inv : Inventory) (key p f l : String) (o : Bool)
    (m : Option MsgIds) :
    getProduct (update_product inv key p f l o m) key
      = some ⟨p, f, l, o, resolveMids inv key m⟩ := by
  unfold update_product
  exact getProduct_setProduct_self inv key _

theorem getProduct_update_ne (inv : Inventory) (key k2 p f l : String) (o : Bool)
    (m : Option MsgIds) (h : k2 ≠ key) :
    getProduct (update_product inv key p f l o m) k2 = getProduct inv k2 := by
  unfold update_product
  exact getProduct_setProduct_ne inv key k2 _ h

theorem mem_fst_of_getProduct (inv : Inventory) (key : String) (r : ProductRecord)
    (h : getProduct inv key = some r) : key ∈ inv.map Prod.fst := by
  induction inv with
  | nil => simp [getProduct] at h
  | cons hd tl ih =>
      obtain ⟨k, r0⟩ := hd
      by_cases hk : k = key
      · simp [hk]
      · simp only [getProduct, if_neg hk] at h
        simp [ih h]

theorem getProduct_of_mem_fst (inv : Inventory) (key : String)
    (h : key ∈ inv.map Prod.fst) : ∃ r, getProduct inv key = some r := by
  induction inv with
  | nil => simp at h
  | cons hd tl ih =>
      obtain ⟨k, r0⟩ := hd
      by_cases hk : k = key
      · exact ⟨r0, by simp [getProduct, hk]⟩
      · simp only [List.map_cons, List.mem_cons] at h
        rcases h with h | h
        · exact absurd h.symm hk
        · obtain ⟨r, hr⟩ := ih h
          exact ⟨r, by simp [getProduct, hk, hr]⟩

theorem setProduct_map_fst (inv : Inventory) (key : String) (r : ProductRecord)
    (h : key ∈ inv.map Prod.fst) :
    (setProduct inv key r).map Prod.fst = inv.map Prod.fst := by
  induction inv with
  | nil => simp at h
  | cons hd tl ih =>
      obtain ⟨k, r0⟩ := hd
      by_cases hk : k = key
      · simp [setProduct, hk]
      · simp only [List.map_cons, List.mem_cons] at h
        rcases h with h | h
        · exact absurd h.symm hk
        · simp [setProduct, hk, ih h]

theorem update_product_map_fst (inv : Inventory) (key p f l : String) (o : Bool)
    (m : Option MsgIds) (h : key ∈ inv.map Prod.fst) :
    (update_product inv key p f l o m).map Prod.fst = inv.map Prod.fst := by
  unfold update_product
  exact setProduct_map_fst inv key _ h

theorem edit_items_loop_eq (inv : Inventory) (key : String) (snap : ProductRecord)
    (mids : MsgIds) (eo : String → EditOutcome) (items : MsgIds) :
    edit_items_loop inv key snap mids eo items
      = match firstInvalid eo items with
        | none => (inv, false)
        | some chat =>
            (update_product inv key snap.price snap.features snap.link snap.out_of_stock
              (some (mids.filter (fun p => p.1 != chat))), true) := by
  induction items with
  | nil => rfl
  | cons hd tl ih =>
      obtain ⟨c, m⟩ := hd
      by_cases hc : eo c = EditOutcome.handleInvalid
      · simp [edit_items_loop, firstInvalid, hc]
      · simp [edit_items_loop, firstInvalid, hc, ih]

theorem edit_or_skip_no_crash (inv : Inventory) (key : String)
    (eo : String → EditOutcome)
    (h : (edit_or_skip_message inv key eo).2 = false) :
    edit_or_skip_message inv key eo = (inv, false) := by
  cases hg : getProduct inv key with
  | none => simp [edit_or_skip_message, hg]
  | some snap =>
      cases hm : snap.message_ids with
      | none => simp [edit_or_skip_message, hg, hm]
      | some mids =>
          have hloop := edit_items_loop_eq inv key snap mids eo mids
          cases hf : firstInvalid eo mids with
          | none => simp [edit_or_skip_message, hg, hm, hloop, hf]
          | some chat =>
              rw [hf] at hloop
              simp [edit_or_skip_message, hg, hm, hloop] at h

theorem process_product_noop (inv : Inventory) (source : String) (obs : Observation)
    (full_link : String) (promo : Option String) (send : Bool) (chats : List String)
    (sendOk : String → Option Nat) (eo : String → EditOutcome) (ex : ProductRecord)
    (hget : getProduct inv (make_product_key source obs.name) = some ex)
    (hobs : obs.out_of_stock = false) (hex : ex.out_of_stock = false)
    (hp : ex.price = obs.price) (hf : ex.features = obs.features) :
    process_product inv source obs full_link promo send chats sendOk eo
      = (inv, [], false) := by
  simp [process_product, hobs, hget, hex, hp, hf]

theorem process_product_oos_noop (inv : Inventory) (source : String) (obs : Observation)
    (full_link : String) (promo : Option String) (send : Bool) (chats : List String)
    (sendOk : String → Option Nat) (eo : String → EditOutcome) (ex : ProductRecord)
    (hget : getProduct inv (make_product_key source obs.name) = some ex)
    (hobs : obs.out_of_stock = true) (hex : ex.out_of_stock = true) :
    process_product inv source obs full_link promo send chats sendOk eo
      = (inv, [], false) := by
  simp [process_product, hobs, hget, hex]

theorem process_product_new_absent (inv : Inventory) (source : String) (obs : Observation)
    (full_link : String) (promo : Option String) (send : Bool) (chats : List String)
    (sendOk : String → Option Nat) (eo : String → EditOutcome)
    (hget : getProduct inv (make_product_key source obs.name) = none)
    (hobs : obs.out_of_stock = false) :
    process_product inv source obs full_link promo send chats sendOk eo
      = (update_product inv (make_product_key source obs.name) obs.price obs.features
            full_link false (if send then send_telegram_message chats sendOk else none),
          (if send then
            [Action.sendNew ⟨obs.name, obs.price, obs.features, full_link, false,
              some "搬瓦工上新", promo⟩] else []),
          false) := by
  cases send <;> simp [process_product, hobs, hget]

theorem process_product_restock (inv : Inventory) (source : String) (obs : Observation)
    (full_link : String) (promo : Option String) (send : Bool) (chats : List String)
    (sendOk : String → Option Nat) (eo : String → EditOutcome) (ex : ProductRecord)
    (hget : getProduct inv (make_product_key source obs.name) = some ex)
    (hobs : obs.out_of_stock = false) (hex : ex.out_of_stock = true) :
    process_product inv source obs full_link promo send chats sendOk eo
      = (update_product inv (make_product_key source obs.name) obs.price obs.features
            full_link false (if send then send_telegram_message chats sendOk else none),
          (if send then
            [Action.sendNew ⟨obs.name, obs.price, obs.features, full_link, false,
              some "搬瓦工补货", promo⟩] else []),
          false) := by
  cases send <;> simp [process_product, hobs, hget, hex]

theorem process_product_new_changed (inv : Inventory) (source : String) (obs : Observation)
    (full_link : String) (promo : Option String) (send : Bool) (chats : List String)
    (sendOk : String → Option Nat) (eo : String → EditOutcome) (ex : ProductRecord)
    (hget : getProduct inv (make_product_key source obs.name) = some ex)
    (hobs : obs.out_of_stock = false) (hex : ex.out_of_stock = false)
    (hch : (ex.price != obs.price || ex.features != obs.features) = true) :
    process_product inv source obs full_link promo send chats sendOk eo
      = (update_product inv (make_product_key source obs.name) obs.price obs.features
            full_link false (if send then send_telegram_message chats sendOk else none),
          (if send then
            [Action.sendNew ⟨obs.name, obs.price, obs.features, full_link, false,
              some "搬瓦工上新", promo⟩] else []),
          false) := by
  cases send <;> simp [process_product, hobs, hget, hex, hch]

theorem process_product_oos_absent (inv : Inventory) (source : String) (obs : Observation)
    (full_link : String) (promo : Option String) (send : Bool) (chats : List String)
    (sendOk : String → Option Nat) (eo : String → EditOutcome)
    (hget : getProduct inv (make_product_key source obs.name) = none)
    (hobs : obs.out_of_stock = true) :
    process_product inv source obs full_link promo send chats sendOk eo
      = (update_product inv (make_product_key source obs.name) obs.price obs.features
          full_link true none, [], false) := by
  simp [process_product, hobs, hget]

theorem process_product_delist_no_handles (inv : Inventory) (source : String)
    (obs : Observation) (full_link : String) (promo : Option String) (send : Bool)
    (chats : List String) (sendOk : String → Option Nat) (eo : String → EditOutcome)
    (ex : ProductRecord)
    (hget : getProduct inv (make_product_key source obs.name) = some ex)
    (hobs : obs.out_of_stock = true) (hex : ex.out_of_stock = false)
    (hl : (send && hasLiveMids ex) = false) :
    process_product inv source obs full_link promo send chats sendOk eo
      = (update_product inv (make_product_key source obs.name) ex.price ex.features
          full_link true ex.message_ids, [], false) := by
  simp [process_product, hobs, hget, hex, hl]

theorem process_product_delist_edit (inv : Inventory) (source : String)
    (obs : Observation) (full_link : String) (promo : Option String) (send : Bool)
    (chats : List String) (sendOk : String → Option Nat) (eo : String → EditOutcome)
    (ex : ProductRecord)
    (hget : getProduct inv (make_product_key source obs.name) = some ex)
    (hobs : obs.out_of_stock = true) (hex : ex.out_of_stock = false)
    (hl : (send && hasLiveMids ex) = true) :
    process_product inv source obs full_link promo send chats sendOk eo
      = (match edit_or_skip_message inv (make_product_key source obs.name) eo with
         | (inv1, true) =>
             (inv1, [Action.editMsg (make_product_key source obs.name)
               ⟨obs.name, ex.price, ex.features, full_link, true, none, promo⟩], true)
         | (inv1, false) =>
             (update_product inv1 (make_product_key source obs.name) ex.price ex.features
                 full_link true ex.message_ids,
               [Action.editMsg (make_product_key source obs.name)
                 ⟨obs.name, ex.price, ex.features, full_link, true, none, promo⟩],
               false)) := by
  simp [process_product, hobs, hget, hex, hl]

/-- Claim C1: the decision function is idempotent.  When processing an
observation completes normally (no escaped RuntimeError, so it produces the
resulting record inv1), processing the same observation again against the
resulting store performs no channel operation, leaves the store unchanged,
and again completes normally. -/
theorem decide_idempotent (inv : Inventory) (source : String) (obs : Observation)
    (full_link : String) (promo : Option String) (send : Bool) (chats : List String)
    (sendOk : String → Option Nat) (eo : String → EditOutcome)
    (inv1 : Inventory) (acts : List Action)
    (h : process_product inv source obs full_link promo send chats sendOk eo
          = (inv1, acts, false)) :
    process_product inv1 source obs full_link promo send chats sendOk eo
      = (inv1, [], false) := by
  cases hobs : obs.out_of_stock with
  | false =>
      cases hget : getProduct inv (make_product_key source obs.name) with
      | none =>
          rw [process_product_new_absent inv source obs full_link promo send chats
            sendOk eo hget hobs] at h
          simp only [Prod.mk.injEq] at h
          obtain ⟨h1, -, -⟩ := h
          subst h1
          exact process_product_noop _ source obs full_link promo send chats sendOk eo _
            (getProduct_update_self ..) hobs rfl rfl rfl
      | some ex =>
          cases hex : ex.out_of_stock with
          | true =>
              rw [process_product_restock inv source obs full_link promo send chats
                sendOk eo ex hget hobs hex] at h
              simp only [Prod.mk.injEq] at h
              obtain ⟨h1, -, -⟩ := h
              subst h1
              exact process_product_noop _ source obs full_link promo send chats sendOk eo _
                (getProduct_update_self ..) hobs rfl rfl rfl
          | false =>
              cases hch : (ex.price != obs.price || ex.features != obs.features) with
              | true =>
                  rw [process_product_new_changed inv source obs full_link promo send chats
                    sendOk eo ex hget hobs hex hch] at h
                  simp only [Prod.mk.injEq] at h
                  obtain ⟨h1, -, -⟩ := h
                  subst h1
                  exact process_product_noop _ source obs full_link promo send chats
                    sendOk eo _ (getProduct_update_self ..) hobs rfl rfl rfl
              | false =>
                  simp only [Bool.or_eq_false_iff, bne_eq_false_iff_eq] at hch
                  have hn := process_product_noop inv source obs full_link promo send chats
                    sendOk eo ex hget hobs hex hch.1 hch.2
                  rw [hn] at h
                  simp only [Prod.mk.injEq] at h
                  obtain ⟨h1, -, -⟩ := h
                  subst h1
                  exact hn
  | true =>
      cases hget : getProduct inv (make_product_key source obs.name) with
      | none =>
          rw [process_product_oos_absent inv source obs full_link promo send chats
            sendOk eo hget hobs] at h
          simp only [Prod.mk.injEq] at h
          obtain ⟨h1, -, -⟩ := h
          subst h1
          exact process_product_oos_noop _ source obs full_link promo send chats sendOk eo _
            (getProduct_update_self ..) hobs rfl
      | some ex =>
          cases hex : ex.out_of_stock with
          | true =>
              have hn := process_product_oos_noop inv source obs full_link promo send chats
                sendOk eo ex hget hobs hex
              rw [hn] at h
              simp only [Prod.mk.injEq] at h
              obtain ⟨h1, -, -⟩ := h
              subst h1
              exact hn
          | false =>
              cases hl : (send && hasLiveMids ex) with
              | false =>
                  rw [process_product_delist_no_handles inv source obs full_link promo send
                    chats sendOk eo ex hget hobs hex hl] at h
                  simp only [Prod.mk.injEq] at h
                  obtain ⟨h1, -, -⟩ := h
                  subst h1
                  exact process_product_oos_noop _ source obs full_link promo send chats
                    sendOk eo _ (getProduct_update_self ..) hobs rfl
              | true =>
                  rw [process_product_delist_edit inv source obs full_link promo send
                    chats sendOk eo ex hget hobs hex hl] at h
                  cases hed : edit_or_skip_message inv (make_product_key source obs.name) eo with
                  | mk invE b =>
                      cases b with
                      | true => rw [hed] at h; simp at h
                      | false =>
                          rw [hed] at h
                          simp only [Prod.mk.injEq] at h
                          obtain ⟨h1, -, -⟩ := h
                          subst h1
                          exact process_product_oos_noop _ source obs full_link promo send
                            chats sendOk eo _ (getProduct_update_self ..) hobs rfl

/-- Witness for claim C1 at a concrete input: a first in-stock observation
creates a record with a sent message handle, and processing the same
observation against that record is a complete no-op. -/
theorem decide_idempotent_witness :
    process_product
        [("S::P", (⟨"$10", "RAM 1G", "L", false, some [("c1", 7)]⟩ : ProductRecord))]
        "S" ⟨"P", "$10", "RAM 1G", false⟩ "L" none true ["c1"] (fun _ => some 7)
        (fun _ => EditOutcome.success)
      = ([("S::P", (⟨"$10", "RAM 1G", "L", false, some [("c1", 7)]⟩ : ProductRecord))],
          [], false) := by
  refine decide_idempotent [] "S" ⟨"P", "$10", "RAM 1G", false⟩ "L" none true ["c1"]
    (fun _ => some 7) (fun _ => EditOutcome.success) _
    [Action.sendNew ⟨"P", "$10", "RAM 1G", "L", false, some "搬瓦工上新", none⟩] ?_
  decide

/-- Claim C5: an in-stock observation identical in price and feature text to
an in-stock existing record is a no-op: no channel call, no store write, and
normal completion. -/
theorem noop_unchanged_in_stock (inv : Inventory) (source : String) (obs : Observation)
    (full_link : String) (promo : Option String) (send : Bool) (chats : List String)
    (sendOk : String → Option Nat) (eo : String → EditOutcome) (ex : ProductRecord)
    (hget : getProduct inv (make_product_key source obs.name) = some ex)
    (hobs : obs.out_of_stock = false) (hex : ex.out_of_stock = false)
    (hp : ex.price = obs.price) (hf : ex.features = obs.features) :
    process_product inv source obs full_link promo send chats sendOk eo
      = (inv, [], false) :=
  process_product_noop inv source obs full_link promo send chats sendOk eo ex
    hget hobs hex hp hf

/-- Witness for claim C5 at a concrete input. -/
theorem noop_unchanged_in_stock_witness :
    process_product
        [("S::P", (⟨"$10", "RAM 1G", "L", false, some [("c1", 7)]⟩ : ProductRecord))]
        "S" ⟨"P", "$10", "RAM 1G", false⟩ "L" none true ["c1"] (fun _ => some 9)
        (fun _ => EditOutcome.success)
      = ([("S::P", (⟨"$10", "RAM 1G", "L", false, some [("c1", 7)]⟩ : ProductRecord))],
          [], false) :=
  noop_unchanged_in_stock
    [("S::P", (⟨"$10", "RAM 1G", "L", false, some [("c1", 7)]⟩ : ProductRecord))]
    "S" ⟨"P", "$10", "RAM 1G", false⟩ "L" none true ["c1"]
    (fun _ => some 9) (fun _ => EditOutcome.success)
    ⟨"$10", "RAM 1G", "L", false, some [("c1", 7)]⟩ (by decide) rfl rfl rfl rfl

/-- Claim C3: an out-of-stock existing record observed back in stock with the
same price text triggers a restock send (the message tagged 搬瓦工补货 built
from the new observation), and the persisted record is back in stock. -/
theorem restock_round_trip (inv : Inventory) (source : String) (obs : Observation)
    (full_link : String) (promo : Option String) (chats : List String)
    (sendOk : String → Option Nat) (eo : String → EditOutcome) (ex : ProductRecord)
    (hget : getProduct inv (make_product_key source obs.name) = some ex)
    (hex : ex.out_of_stock = true) (hobs : obs.out_of_stock = false)
    (_hp : ex.price = obs.price) :
    (process_product inv source obs full_link promo true chats sendOk eo).2.1
      = [Action.sendNew ⟨obs.name, obs.price, obs.features, full_link, false,
          some "搬瓦工补货", promo⟩]
    ∧ ∃ r, getProduct
          (process_product inv source obs full_link promo true chats sendOk eo).1
          (make_product_key source obs.name) = some r
        ∧ r.out_of_stock = false := by
  rw [process_product_restock inv source obs full_link promo true chats sendOk eo ex
    hget hobs hex]
  exact ⟨by simp, ⟨_, getProduct_update_self .., rfl⟩⟩

/-- Witness for claim C3 at a concrete input. -/
theorem restock_round_trip_witness :
    (process_product
        [("S::P", (⟨"$10", "RAM 1G", "L", true, none⟩ : ProductRecord))]
        "S" ⟨"P", "$10", "RAM 2G", false⟩ "L" none true ["c1"] (fun _ => some 9)
        (fun _ => EditOutcome.success)).2.1
      = [Action.sendNew ⟨"P", "$10", "RAM 2G", "L", false, some "搬瓦工补货", none⟩]
    ∧ ∃ r, getProduct
          (process_product
            [("S::P", (⟨"$10", "RAM 1G", "L", true, none⟩ : ProductRecord))]
            "S" ⟨"P", "$10", "RAM 2G", false⟩ "L" none true ["c1"] (fun _ => some 9)
            (fun _ => EditOutcome.success)).1
          (make_product_key "S" "P") = some r
        ∧ r.out_of_stock = false :=
  restock_round_trip
    [("S::P", (⟨"$10", "RAM 1G", "L", true, none⟩ : ProductRecord))]
    "S" ⟨"P", "$10", "RAM 2G", false⟩ "L" none ["c1"]
    (fun _ => some 9) (fun _ => EditOutcome.success)
    ⟨"$10", "RAM 1G", "L", true, none⟩ (by decide) rfl rfl rfl

/-- Claim C6: the first-ever observation of a product that is already out of
stock performs no channel operation and creates a record that is out of
stock, carries the explicit placeholder price and feature values, and has no
message handles; being a plain record, every later comparison against it is
total. -/
theorem first_oos_creates_placeholder_record (inv : Inventory) (url source full_link : String)
    (promo : Option String) (send : Bool) (chats : List String)
    (sendOk : String → Option Nat) (eo : String → EditOutcome)
    (hget : getProduct inv (make_product_key source (oos_observation url).name) = none) :
    process_product inv source (oos_observation url) full_link promo send chats sendOk eo
      = (update_product inv (make_product_key source (oos_observation url).name)
          UNKNOWN_PRICE UNKNOWN_FEATURES full_link true none, [], false)
    ∧ getProduct
        (update_product inv (make_product_key source (oos_observation url).name)
          UNKNOWN_PRICE UNKNOWN_FEATURES full_link true none)
        (make_product_key source (oos_observation url).name)
      = some ⟨UNKNOWN_PRICE, UNKNOWN_FEATURES, full_link, true, none⟩ := by
  constructor
  · exact process_product_oos_absent inv source (oos_observation url) full_link promo
      send chats sendOk eo hget rfl
  · rw [getProduct_update_self]
    simp [resolveMids, hget]

/-- Witness for claim C6 at a concrete input, with the pid-derived name. -/
theorem first_oos_creates_placeholder_record_witness :
    process_product [] "https://bwh81.net/cart.php?a=add&pid=145"
        (oos_observation "https://bwh81.net/cart.php?a=add&pid=145")
        "https://bwh81.net/aff.php?aff=55580&pid=145" none true []
        (fun _ => none) (fun _ => EditOutcome.success)
      = (update_product []
          (make_product_key "https://bwh81.net/cart.php?a=add&pid=145"
            (oos_observation "https://bwh81.net/cart.php?a=add&pid=145").name)
          UNKNOWN_PRICE UNKNOWN_FEATURES
          "https://bwh81.net/aff.php?aff=55580&pid=145" true none, [], false)
    ∧ getProduct
        (update_product []
          (make_product_key "https://bwh81.net/cart.php?a=add&pid=145"
            (oos_observation "https://bwh81.net/cart.php?a=add&pid=145").name)
          UNKNOWN_PRICE UNKNOWN_FEATURES
          "https://bwh81.net/aff.php?aff=55580&pid=145" true none)
        (make_product_key "https://bwh81.net/cart.php?a=add&pid=145"
          (oos_observation "https://bwh81.net/cart.php?a=add&pid=145").name)
      = some ⟨UNKNOWN_PRICE, UNKNOWN_FEATURES,
          "https://bwh81.net/aff.php?aff=55580&pid=145", true, none⟩ :=
  first_oos_creates_placeholder_record [] "https://bwh81.net/cart.php?a=add&pid=145"
    "https://bwh81.net/cart.php?a=add&pid=145"
    "https://bwh81.net/aff.php?aff=55580&pid=145" none true []
    (fun _ => none) (fun _ => EditOutcome.success) rfl

/-- Claim C10: update_product with no explicit message_ids argument carries
over whatever handles the previous record under the key stored (none when
there was no record or the record had no handles), and an explicit argument
replaces them. -/
theorem update_product_handles_frame (inv : Inventory) (key p f l : String) (o : Bool) :
    getProduct (update_product inv key p f l o none) key
      = some ⟨p, f, l, o, (getProduct inv key).bind ProductRecord.message_ids⟩
    ∧ ∀ m : MsgIds, getProduct (update_product inv key p f l o (some m)) key
        = some ⟨p, f, l, o, some m⟩ := by
  constructor
  · rw [getProduct_update_self]
    cases h : getProduct inv key <;> simp [resolveMids, h]
  · intro m
    rw [getProduct_update_self]
    rfl

/-- Claim C7 (refuting the durability part): ProductTracker.save_to_file opens
the durable file in truncating write mode before serializing, so a
serialization failure part way through leaves a partial file that differs
both from the previous durable state and from the full new state; the
exception is caught and only logged. -/
theorem save_to_file_truncates_on_failure :
    save_to_file "OLDSTATE" ["NEWA", "NEWB"] (some 1) = "NEWA"
    ∧ save_to_file "OLDSTATE" ["NEWA", "NEWB"] (some 1) ≠ "OLDSTATE"
    ∧ save_to_file "OLDSTATE" ["NEWA", "NEWB"] (some 1)
        ≠ save_to_file "OLDSTATE" ["NEWA", "NEWB"] none := by
  refine ⟨by decide, by decide, by decide⟩

/-- Claim C2: on a delist transition with notifications enabled, the edit is
invoked with the existing record price and feature text (not the
placeholder observation fields) whenever the record holds a live handle; a
handle-invalid outcome removes exactly that chat entry from the persisted
handle map, leaving no dangling entry for it; and with no live handle the
record is rewritten out of stock with no channel operation. -/
theorem delist_transition_spec (inv : Inventory) (source : String) (obs : Observation)
    (full_link : String) (promo : Option String) (chats : List String)
    (sendOk : String → Option Nat) (eo : String → EditOutcome) (ex : ProductRecord)
    (hget : getProduct inv (make_product_key source obs.name) = some ex)
    (hobs : obs.out_of_stock = true) (hex : ex.out_of_stock = false) :
    (hasLiveMids ex = true →
      (process_product inv source obs full_link promo true chats sendOk eo).2.1
        = [Action.editMsg (make_product_key source obs.name)
            ⟨obs.name, ex.price, ex.features, full_link, true, none, promo⟩])
    ∧ (∀ mids chat, ex.message_ids = some mids →
        firstInvalid eo mids = some chat →
        ∃ r, getProduct
              (process_product inv source obs full_link promo true chats sendOk eo).1
              (make_product_key source obs.name) = some r
          ∧ r.message_ids = some (mids.filter (fun p => p.1 != chat))
          ∧ ∀ m : Nat, (chat, m) ∉ mids.filter (fun p => p.1 != chat))
    ∧ (hasLiveMids ex = false →
        process_product inv source obs full_link promo true chats sendOk eo
          = (update_product inv (make_product_key source obs.name) ex.price ex.features
              full_link true ex.message_ids, [], false)
        ∧ getProduct
            (update_product inv (make_product_key source obs.name) ex.price ex.features
              full_link true ex.message_ids)
            (make_product_key source obs.name)
          = some ⟨ex.price, ex.features, full_link, true, ex.message_ids⟩) := by
  have hres : resolveMids inv (make_product_key source obs.name) ex.message_ids
      = ex.message_ids := by
    cases hmm : ex.message_ids with
    | some l => rfl
    | none => simp [resolveMids, hget, hmm]
  refine ⟨?_, ?_, ?_⟩
  · intro hlive
    rw [process_product_delist_edit inv source obs full_link promo true chats sendOk eo ex
      hget hobs hex (by simp [hlive])]
    cases hed : edit_or_skip_message inv (make_product_key source obs.name) eo with
    | mk invE b => cases b <;> simp
  · intro mids chat hm hfi
    cases mids with
    | nil => simp [firstInvalid] at hfi
    | cons hd tl =>
        have hlive : hasLiveMids ex = true := by simp [hasLiveMids, hm]
        have hed : edit_or_skip_message inv (make_product_key source obs.name) eo
            = (update_product inv (make_product_key source obs.name) ex.price ex.features
                ex.link ex.out_of_stock
                (some ((hd :: tl).filter (fun p => p.1 != chat))), true) := by
          simp only [edit_or_skip_message, hget]
          simp only [hm]
          rw [edit_items_loop_eq, hfi]
        have hfull : process_product inv source obs full_link promo true chats sendOk eo
            = (update_product inv (make_product_key source obs.name) ex.price ex.features
                ex.link ex.out_of_stock
                (some ((hd :: tl).filter (fun p => p.1 != chat))),
              [Action.editMsg (make_product_key source obs.name)
                ⟨obs.name, ex.price, ex.features, full_link, true, none, promo⟩], true) := by
          rw [process_product_delist_edit inv source obs full_link promo true chats sendOk
            eo ex hget hobs hex (by simp [hlive]), hed]
        rw [hfull]
        refine ⟨⟨ex.price, ex.features, ex.link, ex.out_of_stock,
          some ((hd :: tl).filter (fun p => p.1 != chat))⟩, ?_, rfl, ?_⟩
        · exact getProduct_update_self ..
        · intro m
          simp [List.mem_filter]
  · intro hnone
    have h1 := process_product_delist_no_handles inv source obs full_link promo true chats
      sendOk eo ex hget hobs hex (by simp [hnone])
    refine ⟨h1, ?_⟩
    rw [getProduct_update_self, hres]

/-- Witness for claim C2 at a concrete input: two live handles, the first
edit comes back handle-invalid, and the persisted map keeps only the second
chat. -/
theorem delist_transition_spec_witness :
    ∃ r, getProduct
          (process_product
            [("S::P", (⟨"$9", "F", "L", false, some [("c1", 3), ("c2", 4)]⟩ : ProductRecord))]
            "S" ⟨"P", "价格未知", "配置未知", true⟩ "L" none true []
            (fun _ => none)
            (fun c => if c = "c1" then EditOutcome.handleInvalid else EditOutcome.success)).1
          (make_product_key "S" "P") = some r
      ∧ r.message_ids = some ([("c1", 3), ("c2", 4)].filter (fun p => p.1 != "c1"))
      ∧ ∀ m : Nat, ("c1", m) ∉ [("c1", 3), ("c2", 4)].filter (fun p => p.1 != "c1") :=
  (delist_transition_spec
    [("S::P", (⟨"$9", "F", "L", false, some [("c1", 3), ("c2", 4)]⟩ : ProductRecord))]
    "S" ⟨"P", "价格未知", "配置未知", true⟩ "L" none []
    (fun _ => none)
    (fun c => if c = "c1" then EditOutcome.handleInvalid else EditOutcome.success)
    ⟨"$9", "F", "L", false, some [("c1", 3), ("c2", 4)]⟩
    (by decide) rfl rfl).2.1 [("c1", 3), ("c2", 4)] "c1" rfl (by decide)

/-- Claim C9 counterexample: HTTP 402 is a 4xx status, yet the fetch stage
does not skip the page; only 400, 401, 403 and 404 are skipped, every other
non-503 status is parsed after a warning.  So a 402 response with a normal
storefront title proceeds to parsing, refuting the claim that skip happens
for any HTTP 4xx status. -/
theorem fetch_skip_not_all_4xx :
    (400 ≤ 402 ∧ 402 < 500)
    ∧ fetch_decision 402 "https://bwh81.net/cart.php?a=add&pid=145"
        (some "Bandwagon Host - Order") = FetchDecision.proceed := by
  exact ⟨by decide, by decide⟩

/-- Claim C9 amended: the fetch yields a skip exactly when the status is 400,
401, 403 or 404 (other 4xx statuses are parsed after a warning and 503 goes
to the retry loop instead), or the response is a non-503 status outside that
list with a redirect to the bare cart url, a missing or empty page title, a
maintenance marker in the title, or a title without the Bandwagon marker;
and every skip leaves the store untouched with no channel operation. -/
theorem fetch_skip_iff_amended (status : Nat) (final_url : String)
    (title_text : Option String) (inv : Inventory) (source : String)
    (obs : Observation) (full_link : String) (promo : Option String) (send : Bool)
    (chats : List String) (sendOk : String → Option Nat)
    (eo : String → String → EditOutcome) :
    (fetch_decision status final_url title_text = FetchDecision.skipPage ↔
      (status = 400 ∨ status = 401 ∨ status = 403 ∨ status = 404)
      ∨ (¬(status = 400 ∨ status = 401 ∨ status = 403 ∨ status = 404)
          ∧ status ≠ 503
          ∧ (final_url = BWH_CART_ROOT
              ∨ match title_text with
                | none => True
                | some t => t = ""
                    ∨ (strContains t "维护" || strContains t "Maintenance") = true
                    ∨ strContains t "Bandwagon" = false)))
    ∧ (fetch_decision status final_url title_text = FetchDecision.skipPage →
        fetch_round inv status final_url title_text source obs full_link promo send
          chats sendOk eo = (inv, [], false)) := by
  constructor
  · by_cases h4 : status = 400 ∨ status = 401 ∨ status = 403 ∨ status = 404
    · simp [fetch_decision, h4]
    · by_cases h5 : status = 503
      · simp [fetch_decision, h4, h5]
      · by_cases hr : final_url = BWH_CART_ROOT
        · simp [fetch_decision, h4, h5, hr]
        · cases title_text with
          | none => simp [fetch_decision, h4, h5, hr]
          | some t =>
              by_cases he : t = ""
              · simp [fetch_decision, h4, h5, hr, he]
              · cases hm : (strContains t "维护" || strContains t "Maintenance") with
                | true => simp [fetch_decision, h4, h5, hr, he, hm]
                | false =>
                    cases hb : strContains t "Bandwagon" with
                    | true => simp [fetch_decision, h4, h5, hr, he, hm, hb]
                    | false => simp [fetch_decision, h4, h5, hr, he, hm, hb]
  · intro h
    unfold fetch_round
    rw [h]

/-- Witness for the amended claim C9 at a concrete input: a 404 response is
skipped and mutates nothing. -/
theorem fetch_skip_iff_amended_witness :
    fetch_round [("S::P", (⟨"$9", "F", "L", false, none⟩ : ProductRecord))] 404
        "https://bwh81.net/cart.php?a=add&pid=145" (some "Bandwagon Host")
        "S" ⟨"P", "$9", "F", false⟩ "L" none true [] (fun _ => none)
        (fun _ _ => EditOutcome.success)
      = ([("S::P", (⟨"$9", "F", "L", false, none⟩ : ProductRecord))], [], false) :=
  (fetch_skip_iff_amended 404 "https://bwh81.net/cart.php?a=add&pid=145"
    (some "Bandwagon Host") [("S::P", (⟨"$9", "F", "L", false, none⟩ : ProductRecord))]
    "S" ⟨"P", "$9", "F", false⟩ "L" none true [] (fun _ => none)
    (fun _ _ => EditOutcome.success)).2 (by decide)

theorem edit_or_skip_get_ne (inv : Inventory) (key : String) (eo : String → EditOutcome)
    (k : String) (hk : k ≠ key) :
    getProduct (edit_or_skip_message inv key eo).1 k = getProduct inv k := by
  cases hg : getProduct inv key with
  | none => simp [edit_or_skip_message, hg]
  | some snap =>
      cases hm : snap.message_ids with
      | none => simp [edit_or_skip_message, hg, hm]
      | some mids =>
          simp only [edit_or_skip_message, hg, hm]
          rw [edit_items_loop_eq]
          cases hf : firstInvalid eo mids with
          | none => rfl
          | some chat => exact getProduct_update_ne _ _ _ _ _ _ _ _ hk

theorem edit_or_skip_map_fst (inv : Inventory) (key : String) (eo : String → EditOutcome) :
    ((edit_or_skip_message inv key eo).1).map Prod.fst = inv.map Prod.fst := by
  cases hg : getProduct inv key with
  | none => simp [edit_or_skip_message, hg]
  | some snap =>
      cases hm : snap.message_ids with
      | none => simp [edit_or_skip_message, hg, hm]
      | some mids =>
          simp only [edit_or_skip_message, hg, hm]
          rw [edit_items_loop_eq]
          cases hf : firstInvalid eo mids with
          | none => rfl
          | some chat =>
              exact update_product_map_fst _ _ _ _ _ _ _ (mem_fst_of_getProduct _ _ _ hg)

theorem sweep_keys_cons_skip (source full_link : String) (promo : Option String)
    (current_keys : List String) (send : Bool) (eo : String → String → EditOutcome)
    (inv : Inventory) (key : String) (rest : List String)
    (ht : sweepTarget source current_keys key = false) :
    sweep_keys source full_link promo current_keys send eo inv (key :: rest)
      = sweep_keys source full_link promo current_keys send eo inv rest := by
  simp [sweep_keys, ht]

theorem sweep_keys_cons_none (source full_link : String) (promo : Option String)
    (current_keys : List String) (send : Bool) (eo : String → String → EditOutcome)
    (inv : Inventory) (key : String) (rest : List String)
    (ht : sweepTarget source current_keys key = true)
    (hg : getProduct inv key = none) :
    sweep_keys source full_link promo current_keys send eo inv (key :: rest)
      = (inv, [], true) := by
  simp [sweep_keys, ht, hg]

theorem sweep_keys_cons_oos (source full_link : String) (promo : Option String)
    (current_keys : List String) (send : Bool) (eo : String → String → EditOutcome)
    (inv : Inventory) (key : String) (rest : List String) (ex : ProductRecord)
    (ht : sweepTarget source current_keys key = true)
    (hg : getProduct inv key = some ex) (hoos : ex.out_of_stock = true) :
    sweep_keys source full_link promo current_keys send eo inv (key :: rest)
      = sweep_keys source full_link promo current_keys send eo inv rest := by
  simp [sweep_keys, ht, hg, hoos]

theorem sweep_keys_cons_live_crash (source full_link : String) (promo : Option String)
    (current_keys : List String) (send : Bool) (eo : String → String → EditOutcome)
    (inv inv1 : Inventory) (key : String) (rest : List String) (ex : ProductRecord)
    (ht : sweepTarget source current_keys key = true)
    (hg : getProduct inv key = some ex) (hoos : ex.out_of_stock = false)
    (hlv : (send && hasLiveMids ex) = true)
    (hedit : edit_or_skip_message inv key (eo key) = (inv1, true)) :
    sweep_keys source full_link promo current_keys send eo inv (key :: rest)
      = (inv1, [Action.editMsg key ⟨display_name key, ex.price, ex.features,
          full_link, true, none, promo⟩], true) := by
  simp [sweep_keys, ht, hg, hoos, hlv, hedit]

theorem sweep_keys_cons_live_ok (source full_link : String) (promo : Option String)
    (current_keys : List String) (send : Bool) (eo : String → String → EditOutcome)
    (inv inv1 : Inventory) (key : String) (rest : List String) (ex : ProductRecord)
    (ht : sweepTarget source current_keys key = true)
    (hg : getProduct inv key = some ex) (hoos : ex.out_of_stock = false)
    (hlv : (send && hasLiveMids ex) = true)
    (hedit : edit_or_skip_message inv key (eo key) = (inv1, false)) :
    sweep_keys source full_link promo current_keys send eo inv (key :: rest)
      = ((sweep_keys source full_link promo current_keys send eo
            (update_product inv1 key ex.price ex.features full_link true
              ex.message_ids) rest).1,
         Action.editMsg key ⟨display_name key, ex.price, ex.features,
             full_link, true, none, promo⟩
           :: (sweep_keys source full_link promo current_keys send eo
                (update_product inv1 key ex.price ex.features full_link true
                  ex.message_ids) rest).2.1,
         (sweep_keys source full_link promo current_keys send eo
            (update_product inv1 key ex.price ex.features full_link true
              ex.message_ids) rest).2.2) := by
  rcases hrec : sweep_keys source full_link promo current_keys send eo
      (update_product inv1 key ex.price ex.features full_link true ex.message_ids) rest
      with ⟨inv2, acts2, c2⟩
  simp [sweep_keys, ht, hg, hoos, hlv, hedit, hrec]

theorem sweep_keys_cons_nolive (source full_link : String) (promo : Option String)
    (current_keys : List String) (send : Bool) (eo : String → String → EditOutcome)
    (inv : Inventory) (key : String) (rest : List String) (ex : ProductRecord)
    (ht : sweepTarget source current_keys key = true)
    (hg : getProduct inv key = some ex) (hoos : ex.out_of_stock = false)
    (hlv : (send && hasLiveMids ex) = false) :
    sweep_keys source full_link promo current_keys send eo inv (key :: rest)
      = sweep_keys source full_link promo current_keys send eo
          (update_product inv key ex.price ex.features full_link true ex.message_ids)
          rest := by
  simp [sweep_keys, ht, hg, hoos, hlv]

theorem sweep_keys_get_notmem (source full_link : String) (promo : Option String)
    (current_keys : List String) (send : Bool) (eo : String → String → EditOutcome)
    (k : String) :
    ∀ (ks : List String) (inv : Inventory), k ∉ ks →
      getProduct (sweep_keys source full_link promo current_keys send eo inv ks).1 k
        = getProduct inv k := by
  intro ks
  induction ks with
  | nil => intro inv _; rfl
  | cons key rest ih =>
      intro inv h
      have hkne : k ≠ key := fun he => h (he ▸ List.mem_cons_self key rest)
      have hrest : k ∉ rest := fun hr => h (List.mem_cons_of_mem _ hr)
      cases ht : sweepTarget source current_keys key with
      | false =>
          rw [sweep_keys_cons_skip source full_link promo current_keys send eo inv key
            rest ht]
          exact ih inv hrest
      | true =>
          cases hg : getProduct inv key with
          | none =>
              rw [sweep_keys_cons_none source full_link promo current_keys send eo inv key
                rest ht hg]
          | some ex =>
              cases hoos : ex.out_of_stock with
              | true =>
                  rw [sweep_keys_cons_oos source full_link promo current_keys send eo inv
                    key rest ex ht hg hoos]
                  exact ih inv hrest
              | false =>
                  cases hlv : (send && hasLiveMids ex) with
                  | true =>
                      have hegn : getProduct (edit_or_skip_message inv key (eo key)).1 k
                          = getProduct inv k := edit_or_skip_get_ne inv key (eo key) k hkne
                      cases hedit : edit_or_skip_message inv key (eo key) with
                      | mk inv1 b =>
                          rw [hedit] at hegn
                          cases b with
                          | true =>
                              rw [sweep_keys_cons_live_crash source full_link promo
                                current_keys send eo inv inv1 key rest ex ht hg hoos hlv
                                hedit]
                              exact hegn
                          | false =>
                              rw [sweep_keys_cons_live_ok source full_link promo
                                current_keys send eo inv inv1 key rest ex ht hg hoos hlv
                                hedit]
                              exact (ih (update_product inv1 key ex.price ex.features
                                  full_link true ex.message_ids) hrest).trans
                                ((getProduct_update_ne inv1 key k ex.price ex.features
                                  full_link true ex.message_ids hkne).trans hegn)
                  | false =>
                      rw [sweep_keys_cons_nolive source full_link promo current_keys send
                        eo inv key rest ex ht hg hoos hlv]
                      have h2 := ih (update_product inv key ex.price ex.features
                        full_link true ex.message_ids) hrest
                      rw [h2]
                      exact getProduct_update_ne _ _ _ _ _ _ _ _ hkne

theorem sweep_keys_map_fst (source full_link : String) (promo : Option String)
    (current_keys : List String) (send : Bool) (eo : String → String → EditOutcome) :
    ∀ (ks : List String) (inv : Inventory),
      ((sweep_keys source full_link promo current_keys send eo inv ks).1).map Prod.fst
        = inv.map Prod.fst := by
  intro ks
  induction ks with
  | nil => intro inv; rfl
  | cons key rest ih =>
      intro inv
      cases ht : sweepTarget source current_keys key with
      | false =>
          rw [sweep_keys_cons_skip source full_link promo current_keys send eo inv key
            rest ht]
          exact ih inv
      | true =>
          cases hg : getProduct inv key with
          | none =>
              rw [sweep_keys_cons_none source full_link promo current_keys send eo inv key
                rest ht hg]
          | some ex =>
              have hkey : key ∈ inv.map Prod.fst := mem_fst_of_getProduct _ _ _ hg
              cases hoos : ex.out_of_stock with
              | true =>
                  rw [sweep_keys_cons_oos source full_link promo current_keys send eo inv
                    key rest ex ht hg hoos]
                  exact ih inv
              | false =>
                  cases hlv : (send && hasLiveMids ex) with
                  | true =>
                      have hemf : ((edit_or_skip_message inv key (eo key)).1).map Prod.fst
                          = inv.map Prod.fst := edit_or_skip_map_fst inv key (eo key)
                      cases hedit : edit_or_skip_message inv key (eo key) with
                      | mk inv1 b =>
                          rw [hedit] at hemf
                          cases b with
                          | true =>
                              rw [sweep_keys_cons_live_crash source full_link promo
                                current_keys send eo inv inv1 key rest ex ht hg hoos hlv
                                hedit]
                              exact hemf
                          | false =>
                              have hkey1 : key ∈ inv1.map Prod.fst := by
                                rw [hemf]; exact hkey
                              rw [sweep_keys_cons_live_ok source full_link promo
                                current_keys send eo inv inv1 key rest ex ht hg hoos hlv
                                hedit]
                              exact (ih (update_product inv1 key ex.price ex.features
                                  full_link true ex.message_ids)).trans
                                ((update_product_map_fst inv1 key ex.price ex.features
                                  full_link true ex.message_ids hkey1).trans hemf)
                  | false =>
                      rw [sweep_keys_cons_nolive source full_link promo current_keys send
                        eo inv key rest ex ht hg hoos hlv]
                      rw [ih (update_product inv key ex.price ex.features full_link true
                        ex.message_ids)]
                      exact update_product_map_fst _ _ _ _ _ _ _ hkey

theorem sweep_keys_acts_keys (source full_link : String) (promo : Option String)
    (current_keys : List String) (send : Bool) (eo : String → String → EditOutcome) :
    ∀ (ks : List String) (inv : Inventory) (a : Action),
      a ∈ (sweep_keys source full_link promo current_keys send eo inv ks).2.1 →
      ∃ k args, a = Action.editMsg k args ∧ k ∈ ks := by
  intro ks
  induction ks with
  | nil =>
      intro inv a ha
      simp [sweep_keys] at ha
  | cons key0 rest ih =>
      intro inv a ha
      cases ht : sweepTarget source current_keys key0 with
      | false =>
          rw [sweep_keys_cons_skip source full_link promo current_keys send eo inv key0
            rest ht] at ha
          obtain ⟨k, args, hak, hk⟩ := ih inv a ha
          exact ⟨k, args, hak, List.mem_cons_of_mem _ hk⟩
      | true =>
          cases hg0 : getProduct inv key0 with
          | none =>
              rw [sweep_keys_cons_none source full_link promo current_keys send eo inv
                key0 rest ht hg0] at ha
              simp at ha
          | some ex =>
              cases hoos : ex.out_of_stock with
              | true =>
                  rw [sweep_keys_cons_oos source full_link promo current_keys send eo inv
                    key0 rest ex ht hg0 hoos] at ha
                  obtain ⟨k, args, hak, hk⟩ := ih inv a ha
                  exact ⟨k, args, hak, List.mem_cons_of_mem _ hk⟩
              | false =>
                  cases hlv : (send && hasLiveMids ex) with
                  | true =>
                      cases hedit : edit_or_skip_message inv key0 (eo key0) with
                      | mk inv1 b =>
                          cases b with
                          | true =>
                              rw [sweep_keys_cons_live_crash source full_link promo
                                current_keys send eo inv inv1 key0 rest ex ht hg0 hoos hlv
                                hedit] at ha
                              simp only [List.mem_singleton] at ha
                              exact ⟨key0, _, ha, List.mem_cons_self _ _⟩
                          | false =>
                              rw [sweep_keys_cons_live_ok source full_link promo
                                current_keys send eo inv inv1 key0 rest ex ht hg0 hoos hlv
                                hedit] at ha
                              rcases List.mem_cons.mp ha with he | hr
                              · exact ⟨key0, _, he, List.mem_cons_self _ _⟩
                              · obtain ⟨k, args, hak, hk⟩ := ih (update_product inv1 key0
                                  ex.price ex.features full_link true ex.message_ids) a hr
                                exact ⟨k, args, hak, List.mem_cons_of_mem _ hk⟩
                  | false =>
                      rw [sweep_keys_cons_nolive source full_link promo current_keys send
                        eo inv key0 rest ex ht hg0 hoos hlv] at ha
                      obtain ⟨k, args, hak, hk⟩ := ih (update_product inv key0 ex.price
                        ex.features full_link true ex.message_ids) a ha
                      exact ⟨k, args, hak, List.mem_cons_of_mem _ hk⟩

theorem sweep_keys_delists_aux (source full_link : String) (promo : Option String)
    (current_keys : List String) (send : Bool) (eo : String → String → EditOutcome) :
    ∀ (ks : List String) (inv : Inventory), ks.Nodup →
      (sweep_keys source full_link promo current_keys send eo inv ks).2.2 = false →
      ∀ (key : String) (r : ProductRecord), key ∈ ks →
        sweepTarget source current_keys key = true → getProduct inv key = some r →
        ∃ r2, getProduct
            (sweep_keys source full_link promo current_keys send eo inv ks).1 key
            = some r2 ∧ r2.out_of_stock = true := by
  intro ks
  induction ks with
  | nil =>
      intro inv _ _ key r hmem
      simp at hmem
  | cons key0 rest ih =>
      intro inv hnd hnc key r hmem htgt hget
      have hnd0 : key0 ∉ rest := (List.nodup_cons.mp hnd).1
      have hndr : rest.Nodup := (List.nodup_cons.mp hnd).2
      cases ht : sweepTarget source current_keys key0 with
      | false =>
          rw [sweep_keys_cons_skip source full_link promo current_keys send eo inv key0
            rest ht] at hnc ⊢
          rcases List.mem_cons.mp hmem with rfl | hr
          · rw [htgt] at ht; exact Bool.noConfusion ht
          · exact ih inv hndr hnc key r hr htgt hget
      | true =>
          cases hg0 : getProduct inv key0 with
          | none =>
              rw [sweep_keys_cons_none source full_link promo current_keys send eo inv
                key0 rest ht hg0] at hnc
              simp at hnc
          | some ex =>
              cases hoos : ex.out_of_stock with
              | true =>
                  rw [sweep_keys_cons_oos source full_link promo current_keys send eo inv
                    key0 rest ex ht hg0 hoos] at hnc ⊢
                  rcases List.mem_cons.mp hmem with rfl | hr
                  · have hre : r = ex := Option.some.inj (hget.symm.trans hg0)
                    refine ⟨r, ?_, by rw [hre]; exact hoos⟩
                    rw [sweep_keys_get_notmem source full_link promo current_keys send eo
                      key rest inv hnd0]
                    exact hget
                  · exact ih inv hndr hnc key r hr htgt hget
              | false =>
                  cases hlv : (send && hasLiveMids ex) with
                  | true =>
                      cases hedit : edit_or_skip_message inv key0 (eo key0) with
                      | mk inv1 b =>
                          cases b with
                          | true =>
                              rw [sweep_keys_cons_live_crash source full_link promo
                                current_keys send eo inv inv1 key0 rest ex ht hg0 hoos hlv
                                hedit] at hnc
                              simp at hnc
                          | false =>
                              have hedq := edit_or_skip_no_crash inv key0 (eo key0)
                                (by rw [hedit])
                              have hinv1 : inv1 = inv :=
                                congrArg Prod.fst (hedit.symm.trans hedq)
                              subst hinv1
                              rw [sweep_keys_cons_live_ok source full_link promo
                                current_keys send eo inv1 inv1 key0 rest ex ht hg0 hoos hlv
                                hedit] at hnc ⊢
                              rcases List.mem_cons.mp hmem with rfl | hr
                              · refine ⟨⟨ex.price, ex.features, full_link, true,
                                  resolveMids inv1 key ex.message_ids⟩, ?_, rfl⟩
                                exact (sweep_keys_get_notmem source full_link promo
                                  current_keys send eo key rest
                                  (update_product inv1 key ex.price ex.features full_link
                                    true ex.message_ids) hnd0).trans
                                  (getProduct_update_self ..)
                              · have hne : key ≠ key0 := fun he => hnd0 (he ▸ hr)
                                have hgu : getProduct (update_product inv1 key0 ex.price
                                    ex.features full_link true ex.message_ids) key = some r := by
                                  rw [getProduct_update_ne inv1 key0 key ex.price
                                    ex.features full_link true ex.message_ids hne]
                                  exact hget
                                exact ih (update_product inv1 key0 ex.price ex.features
                                  full_link true ex.message_ids) hndr hnc key r hr htgt hgu
                  | false =>
                      rw [sweep_keys_cons_nolive source full_link promo current_keys send
                        eo inv key0 rest ex ht hg0 hoos hlv] at hnc ⊢
                      rcases List.mem_cons.mp hmem with rfl | hr
                      · refine ⟨⟨ex.price, ex.features, full_link, true,
                          resolveMids inv key ex.message_ids⟩, ?_, rfl⟩
                        exact (sweep_keys_get_notmem source full_link promo current_keys
                          send eo key rest
                          (update_product inv key ex.price ex.features full_link true
                            ex.message_ids) hnd0).trans (getProduct_update_self ..)
                      · have hne : key ≠ key0 := fun he => hnd0 (he ▸ hr)
                        have hgu : getProduct (update_product inv key0 ex.price ex.features
                            full_link true ex.message_ids) key = some r := by
                          rw [getProduct_update_ne inv key0 key ex.price ex.features
                            full_link true ex.message_ids hne]
                          exact hget
                        exact ih (update_product inv key0 ex.price ex.features full_link
                          true ex.message_ids) hndr hnc key r hr htgt hgu

theorem countP_zero_of_notmem (key : String) (rest : List String) (acts : List Action)
    (hk : key ∉ rest)
    (hsub : ∀ a ∈ acts, ∃ k args, a = Action.editMsg k args ∧ k ∈ rest) :
    acts.countP (isEditFor key) = 0 := by
  rw [List.countP_eq_zero]
  intro a ha
  obtain ⟨k, args, rfl, hkr⟩ := hsub a ha
  simp only [isEditFor, beq_iff_eq]
  exact fun he => hk (he ▸ hkr)

theorem sweep_keys_edit_count (source full_link : String) (promo : Option String)
    (current_keys : List String) (send : Bool) (eo : String → String → EditOutcome) :
    ∀ (ks : List String) (inv : Inventory), ks.Nodup →
      (sweep_keys source full_link promo current_keys send eo inv ks).2.2 = false →
      ∀ (key : String) (r : ProductRecord), key ∈ ks →
        sweepTarget source current_keys key = true → getProduct inv key = some r →
        ((sweep_keys source full_link promo current_keys send eo inv ks).2.1.countP
            (isEditFor key))
          = if r.out_of_stock = false ∧ send = true ∧ hasLiveMids r = true
            then 1 else 0 := by
  intro ks
  induction ks with
  | nil =>
      intro inv _ _ key r hmem
      simp at hmem
  | cons key0 rest ih =>
      intro inv hnd hnc key r hmem htgt hget
      have hnd0 : key0 ∉ rest := (List.nodup_cons.mp hnd).1
      have hndr : rest.Nodup := (List.nodup_cons.mp hnd).2
      cases ht : sweepTarget source current_keys key0 with
      | false =>
          rw [sweep_keys_cons_skip source full_link promo current_keys send eo inv key0
            rest ht] at hnc ⊢
          rcases List.mem_cons.mp hmem with rfl | hr
          · rw [htgt] at ht; exact Bool.noConfusion ht
          · exact ih inv hndr hnc key r hr htgt hget
      | true =>
          cases hg0 : getProduct inv key0 with
          | none =>
              rw [sweep_keys_cons_none source full_link promo current_keys send eo inv
                key0 rest ht hg0] at hnc
              simp at hnc
          | some ex =>
              cases hoos : ex.out_of_stock with
              | true =>
                  rw [sweep_keys_cons_oos source full_link promo current_keys send eo inv
                    key0 rest ex ht hg0 hoos] at hnc ⊢
                  rcases List.mem_cons.mp hmem with rfl | hr
                  · have hre : r = ex := Option.some.inj (hget.symm.trans hg0)
                    rw [countP_zero_of_notmem key rest _ hnd0
                      (fun a ha => sweep_keys_acts_keys source full_link promo current_keys
                        send eo rest inv a ha)]
                    rw [if_neg]
                    intro hc
                    rw [hre, hoos] at hc
                    exact Bool.noConfusion hc.1
                  · exact ih inv hndr hnc key r hr htgt hget
              | false =>
                  cases hlv : (send && hasLiveMids ex) with
                  | true =>
                      cases hedit : edit_or_skip_message inv key0 (eo key0) with
                      | mk inv1 b =>
                          cases b with
                          | true =>
                              rw [sweep_keys_cons_live_crash source full_link promo
                                current_keys send eo inv inv1 key0 rest ex ht hg0 hoos hlv
                                hedit] at hnc
                              simp at hnc
                          | false =>
                              have hedq := edit_or_skip_no_crash inv key0 (eo key0)
                                (by rw [hedit])
                              have hinv1 : inv1 = inv :=
                                congrArg Prod.fst (hedit.symm.trans hedq)
                              subst hinv1
                              rw [sweep_keys_cons_live_ok source full_link promo
                                current_keys send eo inv1 inv1 key0 rest ex ht hg0 hoos hlv
                                hedit] at hnc ⊢
                              rcases List.mem_cons.mp hmem with rfl | hr
                              · have hre : r = ex := Option.some.inj (hget.symm.trans hg0)
                                obtain ⟨hsend, hlive⟩ :
                                    send = true ∧ hasLiveMids ex = true := by
                                  simpa using hlv
                                rw [List.countP_cons,
                                  countP_zero_of_notmem key rest _ hnd0
                                    (fun a ha => sweep_keys_acts_keys source full_link
                                      promo current_keys send eo rest _ a ha),
                                  if_pos (show r.out_of_stock = false ∧ send = true ∧
                                      hasLiveMids r = true from
                                    by rw [hre]; exact ⟨hoos, hsend, hlive⟩)]
                                simp [isEditFor]
                              · have hne : key ≠ key0 := fun he => hnd0 (he ▸ hr)
                                have hgu : getProduct (update_product inv1 key0 ex.price
                                    ex.features full_link true ex.message_ids) key
                                    = some r := by
                                  rw [getProduct_update_ne inv1 key0 key ex.price
                                    ex.features full_link true ex.message_ids hne]
                                  exact hget
                                rw [List.countP_cons]
                                rw [ih (update_product inv1 key0 ex.price ex.features
                                  full_link true ex.message_ids) hndr hnc key r hr htgt hgu]
                                have hz : isEditFor key (Action.editMsg key0
                                    ⟨display_name key0, ex.price, ex.features, full_link,
                                      true, none, promo⟩) = false := by
                                  simp only [isEditFor, beq_eq_false_iff_ne, ne_eq]
                                  exact fun he => hne he.symm
                                rw [hz]
                                simp
                  | false =>
                      rw [sweep_keys_cons_nolive source full_link promo current_keys send
                        eo inv key0 rest ex ht hg0 hoos hlv] at hnc ⊢
                      rcases List.mem_cons.mp hmem with rfl | hr
                      · have hre : r = ex := Option.some.inj (hget.symm.trans hg0)
                        rw [countP_zero_of_notmem key rest _ hnd0
                          (fun a ha => sweep_keys_acts_keys source full_link promo
                            current_keys send eo rest _ a ha)]
                        rw [if_neg]
                        intro hc
                        rw [hre] at hc
                        rw [hc.2.1, hc.2.2] at hlv
                        exact Bool.noConfusion hlv
                      · have hne : key ≠ key0 := fun he => hnd0 (he ▸ hr)
                        have hgu : getProduct (update_product inv key0 ex.price ex.features
                            full_link true ex.message_ids) key = some r := by
                          rw [getProduct_update_ne inv key0 key ex.price ex.features
                            full_link true ex.message_ids hne]
                          exact hget
                        exact ih (update_product inv key0 ex.price ex.features full_link
                          true ex.message_ids) hndr hnc key r hr htgt hgu

theorem sweep_keys_all_oos_noop (source full_link : String) (promo : Option String)
    (current_keys : List String) (send : Bool) (eo : String → String → EditOutcome) :
    ∀ (ks : List String) (inv : Inventory),
      (∀ k, k ∈ ks → sweepTarget source current_keys k = true →
        ∃ r, getProduct inv k = some r ∧ r.out_of_stock = true) →
      sweep_keys source full_link promo current_keys send eo inv ks
        = (inv, [], false) := by
  intro ks
  induction ks with
  | nil => intro inv _; rfl
  | cons key0 rest ih =>
      intro inv hall
      cases ht : sweepTarget source current_keys key0 with
      | false =>
          rw [sweep_keys_cons_skip source full_link promo current_keys send eo inv key0
            rest ht]
          exact ih inv (fun k hk ht2 => hall k (List.mem_cons_of_mem _ hk) ht2)
      | true =>
          obtain ⟨r, hg, hoos⟩ := hall key0 (List.mem_cons_self _ _) ht
          rw [sweep_keys_cons_oos source full_link promo current_keys send eo inv key0
            rest r ht hg hoos]
          exact ih inv (fun k hk ht2 => hall k (List.mem_cons_of_mem _ hk) ht2)

/-- Claim C4: after the sweep for a source, every stored key of that source
absent from the current batch holds an out-of-stock record; an edit was
attempted for such a key exactly once when its record was in stock with live
handles and notifications were on, and zero times otherwise; and running the
sweep again on the resulting store is a complete no-op (no repeated delist
transition, no duplicate edit), provided the sweep completed normally. -/
theorem sweep_delists_missing (inv : Inventory) (source full_link : String)
    (promo : Option String) (current_keys : List String) (send : Bool)
    (eo : String → String → EditOutcome)
    (hnd : (inv.map Prod.fst).Nodup)
    (hnc : (sweep inv source full_link promo current_keys send eo).2.2 = false) :
    (∀ key r, getProduct inv key = some r →
        sweepTarget source current_keys key = true →
        ∃ r2, getProduct (sweep inv source full_link promo current_keys send eo).1 key
            = some r2 ∧ r2.out_of_stock = true)
    ∧ (∀ key r, getProduct inv key = some r →
        sweepTarget source current_keys key = true →
        ((sweep inv source full_link promo current_keys send eo).2.1.countP
            (isEditFor key))
          = if r.out_of_stock = false ∧ send = true ∧ hasLiveMids r = true
            then 1 else 0)
    ∧ sweep (sweep inv source full_link promo current_keys send eo).1
        source full_link promo current_keys send eo
        = ((sweep inv source full_link promo current_keys send eo).1, [], false) := by
  refine ⟨?_, ?_, ?_⟩
  · intro key r hg htgt
    exact sweep_keys_delists_aux source full_link promo current_keys send eo
      (inv.map Prod.fst) inv hnd hnc key r (mem_fst_of_getProduct _ _ _ hg) htgt hg
  · intro key r hg htgt
    exact sweep_keys_edit_count source full_link promo current_keys send eo
      (inv.map Prod.fst) inv hnd hnc key r (mem_fst_of_getProduct _ _ _ hg) htgt hg
  · have hksfst : (((sweep inv source full_link promo current_keys send eo).1).map
        Prod.fst) = inv.map Prod.fst :=
      sweep_keys_map_fst source full_link promo current_keys send eo
        (inv.map Prod.fst) inv
    show sweep_keys source full_link promo current_keys send eo
        (sweep inv source full_link promo current_keys send eo).1
        ((((sweep inv source full_link promo current_keys send eo).1)).map Prod.fst)
      = ((sweep inv source full_link promo current_keys send eo).1, [], false)
    rw [hksfst]
    apply sweep_keys_all_oos_noop
    intro k hk htgt
    obtain ⟨r0, hr0⟩ := getProduct_of_mem_fst inv k hk
    obtain ⟨r2, hr2, hoos2⟩ := sweep_keys_delists_aux source full_link promo current_keys
      send eo (inv.map Prod.fst) inv hnd hnc k r0 hk htgt hr0
    exact ⟨r2, hr2, hoos2⟩

/-- Witness for claim C4 at a concrete input: stored keys S::X and S::Y both
in stock, current batch observes only S::X; the sweep delists S::Y with
exactly one edit attempt (it had a live handle). -/
theorem sweep_delists_missing_witness :
    (∃ r2, getProduct
          (sweep [("S::X", (⟨"$1", "FX", "L", false, none⟩ : ProductRecord)),
                  ("S::Y", (⟨"$2", "FY", "L", false, some [("c1", 3)]⟩ : ProductRecord))]
            "S" "L" none ["S::X"] true (fun _ _ => EditOutcome.success)).1 "S::Y"
        = some r2 ∧ r2.out_of_stock = true)
    ∧ ((sweep [("S::X", (⟨"$1", "FX", "L", false, none⟩ : ProductRecord)),
               ("S::Y", (⟨"$2", "FY", "L", false, some [("c1", 3)]⟩ : ProductRecord))]
          "S" "L" none ["S::X"] true (fun _ _ => EditOutcome.success)).2.1.countP
        (isEditFor "S::Y"))
        = if (⟨"$2", "FY", "L", false, some [("c1", 3)]⟩ : ProductRecord).out_of_stock
              = false
            ∧ true = true
            ∧ hasLiveMids (⟨"$2", "FY", "L", false, some [("c1", 3)]⟩ : ProductRecord)
              = true
          then 1 else 0 := by
  have h := sweep_delists_missing
    [("S::X", (⟨"$1", "FX", "L", false, none⟩ : ProductRecord)),
     ("S::Y", (⟨"$2", "FY", "L", false, some [("c1", 3)]⟩ : ProductRecord))]
    "S" "L" none ["S::X"] true (fun _ _ => EditOutcome.success)
    (by decide) (by decide)
  exact ⟨h.1 "S::Y" ⟨"$2", "FY", "L", false, some [("c1", 3)]⟩ (by decide) (by decide),
    h.2.1 "S::Y" ⟨"$2", "FY", "L", false, some [("c1", 3)]⟩ (by decide) (by decide)⟩

theorem noUnknownInStock_update (inv : Inventory) (key p f l : String) (o : Bool)
    (m : Option MsgIds) (hinv : noUnknownInStock inv)
    (hok : o = false → unknownSigs p f = false) :
    noUnknownInStock (update_product inv key p f l o m) := by
  intro k r hk hoos
  by_cases hke : k = key
  · subst hke
    rw [getProduct_update_self] at hk
    obtain rfl := Option.some.inj hk
    exact hok hoos
  · rw [getProduct_update_ne _ _ _ _ _ _ _ _ hke] at hk
    exact hinv k r hk hoos

theorem noUnknownInStock_edit (inv : Inventory) (key : String) (eo : String → EditOutcome)
    (hinv : noUnknownInStock inv) :
    noUnknownInStock (edit_or_skip_message inv key eo).1 := by
  cases hg : getProduct inv key with
  | none => simpa [edit_or_skip_message, hg] using hinv
  | some snap =>
      cases hm : snap.message_ids with
      | none => simpa [edit_or_skip_message, hg, hm] using hinv
      | some mids =>
          simp only [edit_or_skip_message, hg, hm]
          rw [edit_items_loop_eq]
          cases hf : firstInvalid eo mids with
          | none => exact hinv
          | some chat =>
              exact noUnknownInStock_update _ _ _ _ _ _ _ hinv
                (fun ho => hinv key snap hg ho)

theorem process_product_sigs (inv : Inventory) (source : String) (obs : Observation)
    (full_link : String) (promo : Option String) (send : Bool) (chats : List String)
    (sendOk : String → Option Nat) (eo : String → EditOutcome)
    (hinv : noUnknownInStock inv)
    (hobs : obs.out_of_stock = false → unknownSigs obs.price obs.features = false) :
    (∀ a ∈ (process_product inv source obs full_link promo send chats sendOk eo).2.1,
        actionSigsKnown a)
    ∧ noUnknownInStock
        (process_product inv source obs full_link promo send chats sendOk eo).1 := by
  cases hobs2 : obs.out_of_stock with
  | true =>
      cases hget : getProduct inv (make_product_key source obs.name) with
      | none =>
          rw [process_product_oos_absent inv source obs full_link promo send chats sendOk
            eo hget hobs2]
          refine ⟨fun a ha => by simp at ha, ?_⟩
          exact noUnknownInStock_update _ _ _ _ _ _ _ hinv (fun h => Bool.noConfusion h)
      | some ex =>
          cases hex : ex.out_of_stock with
          | true =>
              rw [process_product_oos_noop inv source obs full_link promo send chats
                sendOk eo ex hget hobs2 hex]
              exact ⟨fun a ha => by simp at ha, hinv⟩
          | false =>
              have hexknown : unknownSigs ex.price ex.features = false :=
                hinv _ _ hget hex
              cases hlv : (send && hasLiveMids ex) with
              | false =>
                  rw [process_product_delist_no_handles inv source obs full_link promo
                    send chats sendOk eo ex hget hobs2 hex hlv]
                  refine ⟨fun a ha => by simp at ha, ?_⟩
                  exact noUnknownInStock_update _ _ _ _ _ _ _ hinv
                    (fun h => Bool.noConfusion h)
              | true =>
                  rw [process_product_delist_edit inv source obs full_link promo send
                    chats sendOk eo ex hget hobs2 hex hlv]
                  cases hedit : edit_or_skip_message inv
                      (make_product_key source obs.name) eo with
                  | mk inv1 b =>
                      have hpres : noUnknownInStock inv1 := by
                        have h0 := noUnknownInStock_edit inv
                          (make_product_key source obs.name) eo hinv
                        rw [hedit] at h0
                        exact h0
                      cases b with
                      | true =>
                          refine ⟨?_, hpres⟩
                          intro a ha
                          simp only [List.mem_singleton] at ha
                          subst ha
                          exact hexknown
                      | false =>
                          refine ⟨?_, ?_⟩
                          · intro a ha
                            simp only [List.mem_singleton] at ha
                            subst ha
                            exact hexknown
                          · exact noUnknownInStock_update _ _ _ _ _ _ _ hpres
                              (fun h => Bool.noConfusion h)
  | false =>
      have hon : unknownSigs obs.price obs.features = false := hobs hobs2
      cases hget : getProduct inv (make_product_key source obs.name) with
      | none =>
          rw [process_product_new_absent inv source obs full_link promo send chats sendOk
            eo hget hobs2]
          refine ⟨?_, noUnknownInStock_update _ _ _ _ _ _ _ hinv (fun _ => hon)⟩
          intro a ha
          cases send with
          | true =>
              simp only [if_true, List.mem_singleton] at ha
              subst ha
              exact trivial
          | false => simp at ha
      | some ex =>
          cases hex : ex.out_of_stock with
          | true =>
              rw [process_product_restock inv source obs full_link promo send chats
                sendOk eo ex hget hobs2 hex]
              refine ⟨?_, noUnknownInStock_update _ _ _ _ _ _ _ hinv (fun _ => hon)⟩
              intro a ha
              cases send with
              | true =>
                  simp only [if_true, List.mem_singleton] at ha
                  subst ha
                  exact trivial
              | false => simp at ha
          | false =>
              cases hch : (ex.price != obs.price || ex.features != obs.features) with
              | true =>
                  rw [process_product_new_changed inv source obs full_link promo send
                    chats sendOk eo ex hget hobs2 hex hch]
                  refine ⟨?_, noUnknownInStock_update _ _ _ _ _ _ _ hinv (fun _ => hon)⟩
                  intro a ha
                  cases send with
                  | true =>
                      simp only [if_true, List.mem_singleton] at ha
                      subst ha
                      exact trivial
                  | false => simp at ha
              | false =>
                  simp only [Bool.or_eq_false_iff, bne_eq_false_iff_eq] at hch
                  rw [process_product_noop inv source obs full_link promo send chats
                    sendOk eo ex hget hobs2 hex hch.1 hch.2]
                  exact ⟨fun a ha => by simp at ha, hinv⟩

theorem sweep_keys_sigs (source full_link : String) (promo : Option String)
    (current_keys : List String) (send : Bool) (eo : String → String → EditOutcome) :
    ∀ (ks : List String) (inv : Inventory), noUnknownInStock inv →
      (∀ a ∈ (sweep_keys source full_link promo current_keys send eo inv ks).2.1,
          actionSigsKnown a)
      ∧ noUnknownInStock
          (sweep_keys source full_link promo current_keys send eo inv ks).1 := by
  intro ks
  induction ks with
  | nil =>
      intro inv hinv
      exact ⟨fun a ha => by simp [sweep_keys] at ha, hinv⟩
  | cons key0 rest ih =>
      intro inv hinv
      cases ht : sweepTarget source current_keys key0 with
      | false =>
          rw [sweep_keys_cons_skip source full_link promo current_keys send eo inv key0
            rest ht]
          exact ih inv hinv
      | true =>
          cases hg0 : getProduct inv key0 with
          | none =>
              rw [sweep_keys_cons_none source full_link promo current_keys send eo inv
                key0 rest ht hg0]
              exact ⟨fun a ha => by simp at ha, hinv⟩
          | some ex =>
              cases hoos : ex.out_of_stock with
              | true =>
                  rw [sweep_keys_cons_oos source full_link promo current_keys send eo inv
                    key0 rest ex ht hg0 hoos]
                  exact ih inv hinv
              | false =>
                  have hexknown : unknownSigs ex.price ex.features = false :=
                    hinv _ _ hg0 hoos
                  cases hlv : (send && hasLiveMids ex) with
                  | true =>
                      cases hedit : edit_or_skip_message inv key0 (eo key0) with
                      | mk inv1 b =>
                          have hpres : noUnknownInStock inv1 := by
                            have h0 := noUnknownInStock_edit inv key0 (eo key0) hinv
                            rw [hedit] at h0
                            exact h0
                          cases b with
                          | true =>
                              rw [sweep_keys_cons_live_crash source full_link promo
                                current_keys send eo inv inv1 key0 rest ex ht hg0 hoos hlv
                                hedit]
                              refine ⟨?_, hpres⟩
                              intro a ha
                              simp only [List.mem_singleton] at ha
                              subst ha
                              exact hexknown
                          | false =>
                              rw [sweep_keys_cons_live_ok source full_link promo
                                current_keys send eo inv inv1 key0 rest ex ht hg0 hoos hlv
                                hedit]
                              have hupd : noUnknownInStock (update_product inv1 key0
                                  ex.price ex.features full_link true ex.message_ids) :=
                                noUnknownInStock_update _ _ _ _ _ _ _ hpres
                                  (fun h => Bool.noConfusion h)
                              obtain ⟨h1, h2⟩ := ih (update_product inv1 key0 ex.price
                                ex.features full_link true ex.message_ids) hupd
                              refine ⟨?_, h2⟩
                              intro a ha
                              rcases List.mem_cons.mp ha with rfl | hr
                              · exact hexknown
                              · exact h1 a hr
                  | false =>
                      rw [sweep_keys_cons_nolive source full_link promo current_keys send
                        eo inv key0 rest ex ht hg0 hoos hlv]
                      exact ih (update_product inv key0 ex.price ex.features full_link
                        true ex.message_ids)
                        (noUnknownInStock_update _ _ _ _ _ _ _ hinv
                          (fun h => Bool.noConfusion h))

/-- Claim C8: no edit is ever invoked with the placeholder signature pair.
Given the store invariant that every in-stock record carries non-placeholder
signatures (records created by the first-observation-out-of-stock path are
marked out of stock, and only a restock, which overwrites both fields with
observed values, puts them back in stock) and the parser discipline that an
in-stock observation never carries the placeholder pair (the pair is
assigned only in the out-of-stock branch, lines 303 to 309), every edit
performed by the page body, in the delist and in the sweep path, uses
signatures that are not the placeholder pair, and the invariant is preserved
by the whole page body. -/
theorem edits_never_use_unknown_sigs (inv : Inventory) (source : String)
    (obs : Observation) (full_link : String) (promo : Option String) (send : Bool)
    (chats : List String) (sendOk : String → Option Nat)
    (eo : String → String → EditOutcome)
    (hinv : noUnknownInStock inv)
    (hobs : obs.out_of_stock = false → unknownSigs obs.price obs.features = false) :
    (∀ a ∈ (process_page inv source obs full_link promo send chats sendOk eo).2.1,
        actionSigsKnown a)
    ∧ noUnknownInStock
        (process_page inv source obs full_link promo send chats sendOk eo).1 := by
  obtain ⟨h1, h2⟩ := process_product_sigs inv source obs full_link promo send chats
    sendOk (eo (make_product_key source obs.name)) hinv hobs
  rcases hpp : process_product inv source obs full_link promo send chats sendOk
      (eo (make_product_key source obs.name)) with ⟨inv1, acts1, c⟩
  rw [hpp] at h1 h2
  cases c with
  | true =>
      have hpage : process_page inv source obs full_link promo send chats sendOk eo
          = (inv1, acts1, true) := by
        simp [process_page, hpp]
      rw [hpage]
      exact ⟨h1, h2⟩
  | false =>
      obtain ⟨h3, h4⟩ := sweep_keys_sigs source full_link promo
        [make_product_key source obs.name] send eo (inv1.map Prod.fst) inv1 h2
      have h3s : ∀ a ∈ (sweep inv1 source full_link promo
          [make_product_key source obs.name] send eo).2.1, actionSigsKnown a := h3
      have h4s : noUnknownInStock (sweep inv1 source full_link promo
          [make_product_key source obs.name] send eo).1 := h4
      rcases hsw : sweep inv1 source full_link promo
          [make_product_key source obs.name] send eo with ⟨inv2, acts2, c2⟩
      rw [hsw] at h3s h4s
      have hpage : process_page inv source obs full_link promo send chats sendOk eo
          = (inv2, acts1 ++ acts2, c2) := by
        simp [process_page, hpp, hsw]
      rw [hpage]
      refine ⟨?_, h4s⟩
      intro a ha
      rcases List.mem_append.mp ha with hl | hr
      · exact h1 a hl
      · exact h3s a hr

/-- Witness for claim C8 at a concrete input: a store with one in-stock
record with real signatures, observed again out of stock. -/
theorem edits_never_use_unknown_sigs_witness :
    (∀ a ∈ (process_page [("S::P", (⟨"$9", "F", "L", false, some [("c1", 3)]⟩
          : ProductRecord))] "S" ⟨"P", "价格未知", "配置未知", true⟩ "L" none true []
          (fun _ => none) (fun _ _ => EditOutcome.success)).2.1,
        actionSigsKnown a)
    ∧ noUnknownInStock
        (process_page [("S::P", (⟨"$9", "F", "L", false, some [("c1", 3)]⟩
          : ProductRecord))] "S" ⟨"P", "价格未知", "配置未知", true⟩ "L" none true []
          (fun _ => none) (fun _ _ => EditOutcome.success)).1 :=
  edits_never_use_unknown_sigs
    [("S::P", (⟨"$9", "F", "L", false, some [("c1", 3)]⟩ : ProductRecord))]
    "S" ⟨"P", "价格未知", "配置未知", true⟩ "L" none true []
    (fun _ => none) (fun _ _ => EditOutcome.success)
    (by
      intro k r hk hoos
      simp only [getProduct] at hk
      split at hk
      · obtain rfl := Option.some.inj hk
        decide
      · exact Option.noConfusion hk)
    (by intro h; exact Bool.noConfusion h)

end Monitor
